import Mathlib

/-!
Verification development for the Covenant LLM generation harness
(`llm-context/`): a shallow embedding of the diagnostic parser
(`compiler_validator.py`), the example selector (`example_selector.py`)
and the generation/correction loop with its metrics aggregation
(`generation_harness.py`), together with theorems about them.

Modelling conventions:
* Python strings are `List Char` internally, converted to `String` at the
  record boundaries (the record fields mirror the Python dataclasses).
* `json.loads` is an external library call; it is modelled by a decoder
  parameter `JsonDecoder : List Char → Option JValue` — `none` stands for
  `json.JSONDecodeError`.  Theorems either hold for every decoder or fix a
  concrete decoder that agrees with `json.loads` on the input at hand.
* Python exceptions escaping a function are modelled with `Except PyErr`.
* Wall-clock fields (`compilation_time_ms`, `duration_ms`,
  `total_duration_ms`) are not modelled; monetary cost (a Python float
  computed from token counts) is modelled exactly over `Rat`.
-/

/-- Whitespace set of Python's `str.strip()` (ASCII part; the inputs of
this development are ASCII). -/
def isPySpace (c : Char) : Bool :=
  c = ' ' || c = '\t' || c = '\n' || c = '\r' || c = Char.ofNat 11 || c = Char.ofNat 12

/-- Python `str.strip()`. -/
def pyStrip (l : List Char) : List Char :=
  ((l.dropWhile isPySpace).reverse.dropWhile isPySpace).reverse

/-- Python `str.split('\n')`. -/
def splitNl : List Char → List (List Char)
  | [] => [[]]
  | c :: cs =>
    if c = '\n' then [] :: splitNl cs
    else
      match splitNl cs with
      | [] => [[c]]
      | l :: ls => (c :: l) :: ls

/-- Substring containment, Python's `pat in s`. -/
def containsSub (pat : List Char) : List Char → Bool
  | [] => pat.isPrefixOf []
  | c :: rest => pat.isPrefixOf (c :: rest) || containsSub pat rest

/-- ASCII `str.lower()` (the phase-inference substrings are ASCII). -/
def toLowerCh (c : Char) : Char :=
  if 'A' ≤ c && c ≤ 'Z' then Char.ofNat (c.toNat + 32) else c

def isUpperAZ (c : Char) : Bool := 'A' ≤ c && c ≤ 'Z'

def isDigitC (c : Char) : Bool := '0' ≤ c && c ≤ '9'

/-- Python `int()` on a nonempty digit run. -/
def natOfDigits (l : List Char) : Nat :=
  l.foldl (fun n c => 10 * n + (c.toNat - 48)) 0

/-- `ErrorSeverity` enum of `compiler_validator.py`. -/
inductive ErrorSeverity where
  | error
  | warning
  | info
deriving DecidableEq, Repr

/-- `CompilerError` dataclass of `compiler_validator.py`.  JSON numbers are
modelled as integers (no claim involves a fractional payload). -/
structure CompilerError where
  code : String
  severity : ErrorSeverity
  message : String
  location : Option String := none
  line : Option Int := none
  column : Option Int := none
  suggestion : Option String := none
  auto_fix_confidence : Option Int := none
deriving DecidableEq, Repr

/-- `ValidationResult` dataclass of `compiler_validator.py`
(`compilation_time_ms` is wall-clock and not modelled). -/
structure ValidationResult where
  success : Bool
  errors : List CompilerError
  warnings : List CompilerError
  source_code : String
  phase_reached : Option String := none
deriving DecidableEq, Repr

/-- Values produced by `json.loads` (numbers restricted to integers). -/
inductive JValue where
  | null
  | bool (b : Bool)
  | num (n : Int)
  | str (s : String)
  | arr (xs : List JValue)
  | obj (fields : List (String × JValue))

/-- A Python exception escaping the parser. -/
inductive PyErr where
  | valueError (msg : String)
  | attributeError (msg : String)
  | typeError (msg : String)
deriving DecidableEq, Repr

/-- Model of `json.loads` restricted to its success/failure observable:
`none` is `json.JSONDecodeError`. -/
def JsonDecoder : Type := List Char → Option JValue

/-- The decoder that always fails (any input whose combined output is not
valid JSON behaves this way under `json.loads`). -/
def jdecNone : JsonDecoder := fun _ => none

/-- Python `dict.get(k)` on a decoded JSON object. -/
def jget (fields : List (String × JValue)) (k : String) : Option JValue :=
  (fields.find? (fun p => p.1 = k)).map (fun p => p.2)

/-- `ErrorSeverity(v)`: succeeds exactly on the three enum values,
otherwise Python raises `ValueError`. -/
def severityOf? : JValue → Option ErrorSeverity
  | .str s =>
    if s = "error" then some .error
    else if s = "warning" then some .warning
    else if s = "info" then some .info
    else none
  | _ => none

/-- String-typed field extraction with default, as in
`item.get(k, default)`.  A non-string payload for a string-typed field is
not modelled (Python would store it unchecked; no claim exercises it). -/
def jgetStrD (fields : List (String × JValue)) (k : String) (d : String) : String :=
  match jget fields k with
  | some (.str s) => s
  | _ => d

def jgetStr? (fields : List (String × JValue)) (k : String) : Option String :=
  match jget fields k with
  | some (.str s) => some s
  | _ => none

def jgetInt? (fields : List (String × JValue)) (k : String) : Option Int :=
  match jget fields k with
  | some (.num n) => some n
  | _ => none

/-- The `CompilerError` built for one structured record once its severity
has been computed (`_parse_json_output`, loop body). -/
def mkJsonError (fields : List (String × JValue)) (sev : ErrorSeverity) : CompilerError :=
  { code := jgetStrD fields "code" ("E-UNKNOWN")
    severity := sev
    message := jgetStrD fields "message" ("")
    location := jgetStr? fields "location"
    line := jgetInt? fields "line"
    column := jgetInt? fields "column"
    suggestion := jgetStr? fields "suggestion"
    auto_fix_confidence := jgetInt? fields "auto_fix_confidence" }

/-- One iteration of `_parse_json_output`'s loop: compute the severity
(Python evaluates `ErrorSeverity(item.get("severity", "error"))` first and
raises `ValueError` on an unknown value), then build the record.  A
non-object item raises (`item.get` on a non-dict). -/
def parseJsonItem : JValue → Except PyErr (ErrorSeverity × CompilerError)
  | .obj fields =>
    match severityOf? ((jget fields "severity").getD (.str ("error"))) with
    | some sev => .ok (sev, mkJsonError fields sev)
    | none => .error (.valueError ("is not a valid ErrorSeverity"))
  | _ => .error (.attributeError ("get"))

/-- The item loop of `_parse_json_output`: records with severity `error`
are appended to the error list, all others to the warning list. -/
def parseJsonItems : List JValue → Except PyErr (List CompilerError × List CompilerError)
  | [] => .ok ([], [])
  | v :: vs => do
    let (sev, ce) ← parseJsonItem v
    let (es, ws) ← parseJsonItems vs
    if sev = .error then .ok (ce :: es, ws) else .ok (es, ce :: ws)

/-- `_parse_json_output`: a dict is wrapped into a one-element list; the
combined output's trimmed text begins with a brace or bracket, so the
decoded value is an object or an array (iterating any other decoded value
would raise in Python; modelled as `TypeError`). -/
def parse_json_output : JValue → Except PyErr (List CompilerError × List CompilerError)
  | .obj fields => parseJsonItems [.obj fields]
  | .arr xs => parseJsonItems xs
  | _ => .error (.typeError ("not iterable"))

/-- Attempt to match the regex `\[([EW]-[A-Z]+-\d+)\]` at the head of the
text; on success return the captured group and the text after the closing
bracket (`code_match.end()`). -/
def tryCode : List Char → Option (List Char × List Char)
  | '[' :: c1 :: '-' :: rest =>
    if c1 = 'E' || c1 = 'W' then
      let ups := rest.takeWhile isUpperAZ
      let r1 := rest.dropWhile isUpperAZ
      if ups.isEmpty then none
      else
        match r1 with
        | '-' :: r2 =>
          let ds := r2.takeWhile isDigitC
          let r3 := r2.dropWhile isDigitC
          if ds.isEmpty then none
          else
            match r3 with
            | ']' :: r4 => some (c1 :: '-' :: (ups ++ '-' :: ds), r4)
            | _ => none
        | _ => none
    else none
  | _ => none

/-- `re.search` for the bracketed-code pattern: leftmost match wins. -/
def searchCode : List Char → Option (List Char × List Char)
  | [] => none
  | c :: rest =>
    match tryCode (c :: rest) with
    | some r => some r
    | none => searchCode rest

/-- `re.search(r'line (\d+)', line)`: leftmost occurrence of the literal
`line ` followed by at least one digit; the captured digit run is maximal. -/
def searchLineNum : List Char → Option Nat
  | [] => none
  | c :: rest =>
    if ("line ".toList).isPrefixOf (c :: rest) then
      let ds := ((c :: rest).drop 5).takeWhile isDigitC
      if ds.isEmpty then searchLineNum rest else some (natOfDigits ds)
    else searchLineNum rest

/-- `_parse_error_line`: extract the bracketed code (default
`E-UNKNOWN`), the line number, and the message — everything after the code
bracket, with one leading colon stripped, or the whole line when no code
bracket was found. -/
def parse_error_line (line : List Char) (severity : ErrorSeverity) : CompilerError :=
  let codeM := searchCode line
  let code : String :=
    match codeM with
    | some (c, _) => String.mk c
    | none => "E-UNKNOWN"
  let lineNum : Option Int := (searchLineNum line).map (fun n => (n : Int))
  let message : String :=
    match codeM with
    | some (_, after) =>
      match pyStrip after with
      | ':' :: m2 => String.mk (pyStrip m2)
      | m => String.mk m
    | none => String.mk line
  { code := code, severity := severity, message := message, line := lineNum }

/-- The line scan of `_parse_compiler_output`: empty (after strip) lines
are skipped; a line starting with `ERROR` or `error` yields an
error-severity diagnostic, one starting with `WARNING` or `warning` a
warning-severity diagnostic; all other lines are ignored. -/
def parseLines : List (List Char) → List CompilerError × List CompilerError
  | [] => ([], [])
  | l :: ls =>
    let line := pyStrip l
    let rest := parseLines ls
    if line.isEmpty then rest
    else if ("ERROR".toList).isPrefixOf line || ("error".toList).isPrefixOf line then
      (parse_error_line line .error :: rest.1, rest.2)
    else if ("WARNING".toList).isPrefixOf line || ("warning".toList).isPrefixOf line then
      (rest.1, parse_error_line line .warning :: rest.2)
    else rest

/-- Does the trimmed combined output begin with a brace or a bracket?
(`output.strip().startswith('{') or output.strip().startswith('[')`). -/
def startsJson (stripped : List Char) : Bool :=
  match stripped with
  | c :: _ => c = Char.ofNat 123 || c = '['
  | [] => false

/-- `_parse_compiler_output` over the captured process result.  The
combined text is `stderr + "\n" + stdout`.  If its trimmed form begins
with a brace/bracket, structured decoding is attempted first:
`json.JSONDecodeError` (decoder returns `none`) falls through silently to
the line-oriented scan.  On the text path, if no error-severity diagnostic
was found and the exit code is non-zero, exactly one `E-UNKNOWN` error is
synthesized whose message is the combined output, or `Compilation failed`
when that output is the empty string. -/
def parse_compiler_output (jdec : JsonDecoder) (stdoutC stderrC : List Char)
    (returncode : Int) : Except PyErr (List CompilerError × List CompilerError) :=
  let output := stderrC ++ '\n' :: stdoutC
  let textPath : List CompilerError × List CompilerError :=
    let (errors, warnings) := parseLines (splitNl output)
    if errors.isEmpty && returncode ≠ 0 then
      ([{ code := "E-UNKNOWN"
          severity := .error
          message := if output.isEmpty then "Compilation failed" else String.mk output
          location := none }], warnings)
    else (errors, warnings)
  if startsJson (pyStrip output) then
    match jdec output with
    | some data => parse_json_output data
    | none => .ok textPath
  else .ok textPath

/-- `_determine_phase`: no errors means `success`; otherwise the first
matching code prefix wins, then a case-insensitive substring search in
`stderr + stdout` (no joining newline here, as in the source), else
`unknown`. -/
def determine_phase (stdoutC stderrC : List Char) (errors : List CompilerError) : String :=
  if errors.isEmpty then "success"
  else
    let codes := errors.map (fun e => e.code)
    if codes.any (fun c => ("E-PARSE".toList).isPrefixOf c.toList) then "parser"
    else if codes.any (fun c => ("E-TYPE".toList).isPrefixOf c.toList) then "type_check"
    else if codes.any (fun c => ("E-EFFECT".toList).isPrefixOf c.toList) then "effect_check"
    else if codes.any (fun c => ("E-CODEGEN".toList).isPrefixOf c.toList) then "codegen"
    else
      let output := (stderrC ++ stdoutC).map toLowerCh
      if containsSub ("parsing".toList) output then "parser"
      else if containsSub ("type checking".toList) output then "type_check"
      else "unknown"

/-- `CompilerValidator.validate`, after the subprocess step: parse the
captured output, then build the `ValidationResult` with
`success = (len(errors) == 0)` and the inferred phase. -/
def validate (jdec : JsonDecoder) (source_code : String) (stdoutC stderrC : List Char)
    (returncode : Int) : Except PyErr ValidationResult := do
  let (errors, warnings) ← parse_compiler_output jdec stdoutC stderrC returncode
  .ok { success := errors.isEmpty
        errors := errors
        warnings := warnings
        source_code := source_code
        phase_reached := some (determine_phase stdoutC stderrC errors) }

/-- `TaskType` enum of `example_selector.py`. -/
inductive TaskType where
  | pure_function
  | effectful_function
  | crud_operation
  | error_handling
  | pattern_matching
  | type_definition
  | database_binding
  | query_covenant
  | query_sql
  | transaction
  | migration
  | refactoring
  | general
deriving DecidableEq, Repr

/-- `Example` catalog entry of `example_selector.py`. -/
structure Example where
  path : String
  title : String
  categories : List TaskType
  approx_tokens : Nat
  priority : Nat
deriving DecidableEq, Repr

/-- The static `EXAMPLES` catalog, in source order. -/
def EXAMPLES : List Example :=
  [ { path := "examples/01-hello-world.cov"
      title := "Hello World (Minimal Effectful Function)"
      categories := [.effectful_function], approx_tokens := 80, priority := 3 }
  , { path := "examples/02-pure-functions.cov"
      title := "Pure Functions (No Effects)"
      categories := [.pure_function], approx_tokens := 350, priority := 9 }
  , { path := "examples/04-error-handling.cov"
      title := "Error Handling (Union Returns, Handle Blocks)"
      categories := [.error_handling, .type_definition], approx_tokens := 800, priority := 9 }
  , { path := "examples/10-pattern-matching.cov"
      title := "Pattern Matching (Match, Destructuring)"
      categories := [.pattern_matching, .type_definition], approx_tokens := 550, priority := 8 }
  , { path := "examples/16-database-dialects.cov"
      title := "Database Dialects (SQL Body Blocks)"
      categories := [.query_sql, .database_binding, .crud_operation, .transaction]
      approx_tokens := 1200, priority := 8 }
  , { path := "examples/14-project-queries.cov"
      title := "Project Queries (Covenant Dialect)"
      categories := [.query_covenant], approx_tokens := 650, priority := 7 }
  , { path := "examples/06-database-access.cov"
      title := "Database Access (Simple CRUD)"
      categories := [.crud_operation, .effectful_function], approx_tokens := 450, priority := 6 }
  , { path := "examples/07-multiple-effects.cov"
      title := "Multiple Effects (Database + Network)"
      categories := [.effectful_function], approx_tokens := 420, priority := 6 }
  , { path := "examples/11-extern-bindings.cov"
      title := "External Bindings (Tool Integration)"
      categories := [.effectful_function], approx_tokens := 700, priority := 5 }
  , { path := "examples/13-database-module.cov"
      title := "Database Module (Schema Definition)"
      categories := [.database_binding], approx_tokens := 700, priority := 7 }
  , { path := "examples/15-ast-mutations.cov"
      title := "AST Mutations (Refactoring)"
      categories := [.refactoring], approx_tokens := 800, priority := 5 }
  ]

/-- `_get_related_categories`: the fixed, asymmetric relation table;
absent key means no related tags. -/
def get_related_categories : TaskType → List TaskType
  | .pure_function => [.pattern_matching]
  | .effectful_function => [.error_handling]
  | .crud_operation => [.query_sql, .query_covenant, .database_binding]
  | .error_handling => [.pattern_matching, .type_definition]
  | .pattern_matching => [.type_definition, .error_handling]
  | .query_sql => [.crud_operation, .database_binding]
  | .query_covenant => [.crud_operation]
  | .transaction => [.crud_operation, .query_sql]
  | _ => []

/-- `_score_example`: +50 direct category match, +10 per related tag,
+2×priority, +5 when the token cost is below 500.  The Python score is a
float whose value is always a small integer, so it is modelled as `Nat`. -/
def score_example (ex : Example) (task_type : TaskType) : Nat :=
  (if task_type ∈ ex.categories then 50 else 0)
  + 10 * (ex.categories.countP (fun cat => cat ∈ get_related_categories task_type))
  + 2 * ex.priority
  + (if ex.approx_tokens < 500 then 5 else 0)

/-- The positively-scored candidates of `select`, paired with their
scores, in catalog order. -/
def scoredCandidates (task_type : TaskType) : List (Nat × Example) :=
  EXAMPLES.filterMap fun ex =>
    let s := score_example ex task_type
    if 0 < s then some (s, ex) else none

/-- Ordering used by `scored.sort(key=lambda x: x[0], reverse=True)`:
score descending.  Python's sort is stable, so `List.insertionSort` with
this (non-strict) relation models it exactly. -/
def scoreRel (a b : Nat × Example) : Prop := b.1 ≤ a.1

instance : DecidableRel scoreRel := fun a b => Nat.decLe b.1 a.1

instance : IsTotal (Nat × Example) scoreRel := ⟨fun a b => Nat.le_total b.1 a.1⟩

instance : IsTrans (Nat × Example) scoreRel := ⟨fun _ _ _ h1 h2 => Nat.le_trans h2 h1⟩

/-- The sorted candidate list of `select`. -/
def sortedCandidates (task_type : TaskType) : List (Nat × Example) :=
  List.insertionSort scoreRel (scoredCandidates task_type)

/-- The greedy selection loop of `select`: stop once `max_examples` are
taken (`slots = 0`); an example fitting the remaining budget is taken, one
exceeding it is skipped and iteration continues. -/
def selectPick (max_tokens : Nat) : Nat → Nat → List (Nat × Example) → List Example
  | _, _, [] => []
  | 0, _, _ :: _ => []
  | slots + 1, total_tokens, p :: ps =>
    if total_tokens + p.2.approx_tokens ≤ max_tokens then
      p.2 :: selectPick max_tokens slots (total_tokens + p.2.approx_tokens) ps
    else
      selectPick max_tokens (slots + 1) total_tokens ps

/-- `ExampleSelector.select`: score, keep positive scores, stable-sort by
score descending, then select greedily within the token and count
budgets. -/
def select (task_type : TaskType) (max_tokens : Nat) (max_examples : Nat) : List Example :=
  selectPick max_tokens max_examples 0 (sortedCandidates task_type)

/-- `GenerationAttempt` dataclass of `generation_harness.py` (`duration_ms`
is wall-clock and not modelled).  `validation_result` is `Optional` in the
dataclass; `_generate_attempt`/`_generate_correction` always set it. -/
structure GenerationAttempt where
  attempt_number : Nat
  prompt_tokens : Nat
  completion_tokens : Nat
  generated_code : String
  validation_result : Option ValidationResult := none
deriving DecidableEq, Repr

/-- The model invocation plus validation (`_generate_attempt` for attempt
1, `_generate_correction` for later rounds): an external collaborator,
modelled as a function from the attempt number to the attempt record it
produces. -/
def AttemptOracle : Type := Nat → GenerationAttempt

/-- The success test the harness applies to an attempt:
`validation_result is not None and validation_result.success`. -/
def attemptSuccess (a : GenerationAttempt) : Bool :=
  match a.validation_result with
  | some v => v.success
  | none => false

/-- `GenerationMetrics` dataclass (timestamp and wall-clock duration not
modelled; the float cost is modelled exactly over `Rat`). -/
structure GenerationMetrics where
  task_id : String
  attempts : List GenerationAttempt
  total_attempts : Nat
  first_pass_success : Bool
  final_success : Bool
  total_prompt_tokens : Nat
  total_completion_tokens : Nat
  total_cost_usd : Rat
  error_codes : List String
deriving DecidableEq, Repr

/-- The self-correction loop of `GenerationHarness.generate`
(`for round_num in range(2, max_correction_rounds + 2)`), carrying the
accumulated attempt list, the current validation result and the running
`final_success` flag exactly as the source does. -/
def genLoop (gen : AttemptOracle) :
    Nat → Nat → List GenerationAttempt → Option ValidationResult → Bool →
    List GenerationAttempt × Option ValidationResult × Bool
  | 0, _, attempts, current_validation, final_success =>
    (attempts, current_validation, final_success)
  | rounds + 1, round_num, attempts, current_validation, final_success =>
    if final_success then (attempts, current_validation, final_success)
    else
      match current_validation with
      | none => (attempts, current_validation, final_success)
      | some cv =>
        if cv.success then (attempts, some cv, final_success)
        else
          let a := gen round_num
          genLoop gen rounds (round_num + 1) (attempts ++ [a])
            a.validation_result (attemptSuccess a)

/-- `GenerationHarness.generate` for `max_correction_rounds = R`: attempt
1, then up to `R` correction rounds, stopping on the first success; the
metrics are assembled from the accumulated attempts. -/
def generate (R : Nat) (task_id : String) (gen : AttemptOracle) : GenerationMetrics :=
  let attempt1 := gen 1
  let first_pass_success := attemptSuccess attempt1
  let (attempts, current_validation, final_success) :=
    genLoop gen R 2 [attempt1] attempt1.validation_result first_pass_success
  let total_prompt := (attempts.map (fun a => a.prompt_tokens)).sum
  let total_completion := (attempts.map (fun a => a.completion_tokens)).sum
  { task_id := task_id
    attempts := attempts
    total_attempts := attempts.length
    first_pass_success := first_pass_success
    final_success := final_success
    total_prompt_tokens := total_prompt
    total_completion_tokens := total_completion
    total_cost_usd := ((total_prompt : Rat) / 1000000) * 3 + ((total_completion : Rat) / 1000000) * 15
    error_codes :=
      match current_validation with
      | some cv => if cv.success then [] else cv.errors.map (fun e => e.code)
      | none => [] }

def backtick : Char := Char.ofNat 96

/-- The literal `` ``` `` fence. -/
def fenceMarker : List Char := [backtick, backtick, backtick]

/-- Try the opening of the regex `` ```(?:covenant)?\n `` at the head of
the text; on success return the text following the newline. -/
def tryOpenFence (l : List Char) : Option (List Char) :=
  if fenceMarker.isPrefixOf l then
    let r := l.drop 3
    if ("covenant".toList ++ ['\n']).isPrefixOf r then some (r.drop 9)
    else
      match r with
      | '\n' :: r2 => some r2
      | _ => none
  else none

/-- The non-greedy capture `(.*?)` followed by `` ``` ``: the content up
to the first closing fence, `none` when no closing fence exists. -/
def splitAtFence : List Char → Option (List Char)
  | [] => none
  | c :: rest =>
    if fenceMarker.isPrefixOf (c :: rest) then some []
    else
      match splitAtFence rest with
      | some content => some (c :: content)
      | none => none

/-- Leftmost match of `` ```(?:covenant)?\n(.*?)``` `` (`re.findall` with
`re.DOTALL`; only the first match is used): scan left to right, at each
position try the opening and then require a closing fence. -/
def firstFenceContent : List Char → Option (List Char)
  | [] => none
  | c :: rest =>
    match tryOpenFence (c :: rest) with
    | some after =>
      match splitAtFence after with
      | some content => some content
      | none => firstFenceContent rest
    | none => firstFenceContent rest

/-- `_extract_code_from_markdown`: first matching fenced block's contents
stripped, else the whole reply stripped. -/
def extract_code_from_markdown (text : String) : String :=
  match firstFenceContent text.toList with
  | some content => String.mk (pyStrip content)
  | none => String.mk (pyStrip text.toList)

/-- The generated-text computation of `_call_llm` on the model's reply:
the extractor is invoked only when the reply contains a backtick fence
(`if "```" in code`), so a reply with no fence anywhere is used raw and
untrimmed. -/
def call_llm_code (text : String) : String :=
  if containsSub fenceMarker text.toList then extract_code_from_markdown text
  else text

/-- Python float ("true") division, modelled exactly over `Rat`; a zero
denominator raises `ZeroDivisionError`. -/
def pyTrueDiv (a b : Rat) : Except String Rat :=
  if b = 0 then .error "ZeroDivisionError" else .ok (a / b)

/-- The statistics computed by `print_summary`, in source order: the
guarded averages (`... / total if total > 0 else 0`), then the two
success-rate divisions `first_pass/total*100` and `final/total*100`,
which are not guarded (`avg_time` is wall-clock and not modelled). -/
def print_summary_stats (results : List GenerationMetrics) :
    Except String (Rat × Rat × Rat × Rat) := do
  let total : Nat := results.length
  let first_pass : Nat := results.countP (fun r => r.first_pass_success)
  let final : Nat := results.countP (fun r => r.final_success)
  let avg_attempts : Rat :=
    if 0 < total then ((results.map (fun r => r.total_attempts)).sum : Rat) / (total : Rat) else 0
  let avg_cost : Rat :=
    if 0 < total then (results.map (fun r => r.total_cost_usd)).sum / (total : Rat) else 0
  let first_rate ← pyTrueDiv (first_pass : Rat) (total : Rat)
  let final_rate ← pyTrueDiv (final : Rat) (total : Rat)
  .ok (avg_attempts, avg_cost, first_rate * 100, final_rate * 100)

/-- The `ValidationResult` produced for empty streams and exit code 0. -/
def outcomeEmptyOk : ValidationResult :=
  { success := true, errors := [], warnings := [], source_code := ""
    phase_reached := some ("success") }

/-- Claim C2: for every captured compiler result (and every behaviour of
the JSON decoder), whenever `validate` returns a `ValidationResult`, its
`success` flag is true iff its error list is empty. -/
theorem claim_C2_success_iff_no_errors (jdec : JsonDecoder) (src : String)
    (stdoutC stderrC : List Char) (rc : Int) (v : ValidationResult)
    (h : validate jdec src stdoutC stderrC rc = .ok v) :
    v.success = true ↔ v.errors = [] := by
  unfold validate at h
  cases hp : parse_compiler_output jdec stdoutC stderrC rc with
  | error e => rw [hp] at h; simp [Bind.bind, Except.bind] at h
  | ok p =>
    rw [hp] at h
    simp only [Bind.bind, Except.bind, Except.ok.injEq] at h
    subst h
    simp [List.isEmpty_iff]

/-- Witness for C2 at the concrete input: empty stdout/stderr, exit 0. -/
theorem claim_C2_success_iff_no_errors_witness :
    outcomeEmptyOk.success = true ↔ outcomeEmptyOk.errors = [] :=
  claim_C2_success_iff_no_errors jdecNone "" [] [] 0 outcomeEmptyOk rfl

/-- Claim C3 (code bug evaluation): with empty stdout and stderr and exit
code 1, the synthesized `E-UNKNOWN` diagnostic's message is the combined
output `"\n"` — the newline inserted between the two streams makes the
combined output non-empty, so the `Compilation failed` fallback is never
reached, contradicting the claimed fallback message. -/
theorem claim_C3_empty_streams_eval (jdec : JsonDecoder) :
    parse_compiler_output jdec [] [] 1
      = .ok ([{ code := "E-UNKNOWN", severity := .error, message := "\n"
                location := none }], [])
    ∧ ("\n" : String) ≠ "Compilation failed" :=
  ⟨rfl, by decide⟩

/-- Claim C4 counterexample: for the raw line
`ERROR [E-PARSE-001] at line 10: Unexpected token` with exit code 1, the
single error diagnostic's message is `at line 10: Unexpected token`
(everything after the code bracket), not the claimed `Unexpected token`. -/
theorem claim_C4_counterexample :
    (validate jdecNone "" []
        ("ERROR [E-PARSE-001] at line 10: Unexpected token".toList) 1).map
        (fun v => v.errors.map (fun e => e.message))
      = .ok [("at line 10: Unexpected token")]
    ∧ ("at line 10: Unexpected token" : String) ≠ "Unexpected token" :=
  ⟨rfl, by decide⟩

/-- Claim C4 as amended: the same input yields exactly one error
diagnostic with code `E-PARSE-001`, line 10 and message
`at line 10: Unexpected token`; the phase is `parser` and the outcome's
success flag is false. -/
theorem claim_C4_scenario_eval :
    validate jdecNone "" []
        ("ERROR [E-PARSE-001] at line 10: Unexpected token".toList) 1
      = .ok { success := false
              errors := [{ code := "E-PARSE-001", severity := .error
                           message := "at line 10: Unexpected token"
                           line := some 10 }]
              warnings := []
              source_code := ""
              phase_reached := some ("parser") } := rfl

/-- Claim C7 (code bug evaluation): `print_summary` on an empty result
list raises `ZeroDivisionError` — the averages are guarded by
`if total > 0` but the success-rate expressions `first_pass/total*100`
and `final/total*100` are not. -/
theorem claim_C7_empty_summary_divzero :
    print_summary_stats [] = .error "ZeroDivisionError" := rfl

/-- Claim C8 counterexample: the line `Error [E-PARSE-001] at line 3: bad`
starts with a case-insensitive `error` token, yet the line scan produces
no diagnostic at all — only the exact prefixes `ERROR`/`error` (and
`WARNING`/`warning`) are recognised. -/
theorem claim_C8_counterexample :
    parseLines [("Error [E-PARSE-001] at line 3: bad".toList)] = ([], []) := rfl

/-- Claim C8 as amended: in the line-oriented fallback a line whose
trimmed form starts with the exact prefix `ERROR` or `error` yields an
error-severity diagnostic, one that does not but starts with `WARNING` or
`warning` yields a warning-severity diagnostic, and every other line
(including blank lines and mixed-case prefixes such as `Error`) is
ignored. -/
theorem claim_C8_line_classification (l : List Char) (ls : List (List Char)) :
    (((("ERROR".toList).isPrefixOf (pyStrip l) || ("error".toList).isPrefixOf (pyStrip l)) = true) →
      parseLines (l :: ls)
        = (parse_error_line (pyStrip l) .error :: (parseLines ls).1, (parseLines ls).2))
    ∧ (((("ERROR".toList).isPrefixOf (pyStrip l) || ("error".toList).isPrefixOf (pyStrip l)) = false) →
       ((("WARNING".toList).isPrefixOf (pyStrip l) || ("warning".toList).isPrefixOf (pyStrip l)) = true) →
      parseLines (l :: ls)
        = ((parseLines ls).1, parse_error_line (pyStrip l) .warning :: (parseLines ls).2))
    ∧ (((("ERROR".toList).isPrefixOf (pyStrip l) || ("error".toList).isPrefixOf (pyStrip l)) = false) →
       ((("WARNING".toList).isPrefixOf (pyStrip l) || ("warning".toList).isPrefixOf (pyStrip l)) = false) →
      parseLines (l :: ls) = parseLines ls) := by
  refine ⟨?_, ?_, ?_⟩
  · intro he
    have hne : (pyStrip l).isEmpty = false := by
      cases hst : pyStrip l with
      | nil => rw [hst] at he; simp at he
      | cons c cs => rfl
    simp only [parseLines, hne, Bool.false_eq_true, if_false, he, if_true]
  · intro he hw
    have hne : (pyStrip l).isEmpty = false := by
      cases hst : pyStrip l with
      | nil => rw [hst] at hw; simp at hw
      | cons c cs => rfl
    simp only [parseLines, hne, Bool.false_eq_true, if_false, he, hw, if_true]
  · intro he hw
    simp only [parseLines, he, Bool.false_eq_true, if_false, hw]
    split <;> rfl

/-- Witness for the amended C8 at a concrete error line. -/
theorem claim_C8_line_classification_witness :
    parseLines [("error: boom".toList)]
      = (parse_error_line (pyStrip ("error: boom".toList)) .error :: (parseLines []).1,
         (parseLines []).2) :=
  (claim_C8_line_classification ("error: boom".toList) []).1 (by decide)

/-- Claim C6, first half as amended: a decoding failure
(`json.JSONDecodeError`, decoder returns `none`) silently falls through to
the line-oriented parser — the result is returned normally and is the same
as if no structured decoding had been attempted at all. -/
theorem claim_C6_decode_failure_falls_through (jdec : JsonDecoder)
    (stdoutC stderrC : List Char) (rc : Int)
    (h : jdec (stderrC ++ '\n' :: stdoutC) = none) :
    ∃ p, parse_compiler_output jdec stdoutC stderrC rc = .ok p
      ∧ parse_compiler_output jdec stdoutC stderrC rc
          = parse_compiler_output jdecNone stdoutC stderrC rc := by
  unfold parse_compiler_output
  by_cases hj : startsJson (pyStrip (stderrC ++ '\n' :: stdoutC)) = true
  · rw [if_pos hj, if_pos hj, h]
    exact ⟨_, rfl, rfl⟩
  · rw [if_neg hj, if_neg hj]
    exact ⟨_, rfl, rfl⟩

/-- Witness for the amended C6 at empty streams with the failing decoder. -/
theorem claim_C6_decode_failure_falls_through_witness :
    ∃ p, parse_compiler_output jdecNone [] [] 0 = .ok p
      ∧ parse_compiler_output jdecNone [] [] 0 = parse_compiler_output jdecNone [] [] 0 :=
  claim_C6_decode_failure_falls_through jdecNone [] [] 0 rfl

/-- A decoder agreeing with `json.loads` on the single input
`'\x7b"severity": "fatal"\x7d\n'` (a trailing newline is accepted by
`json.loads`), which decodes to the object with one field
`severity ↦ "fatal"`. -/
def jdecFatal : JsonDecoder := fun l =>
  if l = ("\x7b\"severity\": \"fatal\"\x7d".toList ++ ['\n'])
  then some (.obj [("severity", JValue.str ("fatal"))]) else none

/-- Claim C6 counterexample: parsing is not exception-free for every
input.  When stderr is the decodable payload `\x7b"severity": "fatal"\x7d`,
decoding succeeds and `ErrorSeverity("fatal")` raises `ValueError`, which
escapes `_parse_compiler_output` to the caller. -/
theorem claim_C6_counterexample :
    parse_compiler_output jdecFatal []
        ("\x7b\"severity\": \"fatal\"\x7d".toList) 1
      = .error (.valueError ("is not a valid ErrorSeverity")) := rfl

/-- Claim C10: over any structured array payload whose records all parse
(objects with a valid or absent severity), the error list is exactly the
records whose computed severity is `error`, and the warning list is
exactly the records whose computed severity is `warning` or `info` — so an
info-severity record is reported as a warning, and a payload with no
error-severity record yields an empty error list (hence a true success
flag, which equals emptiness of the error list). -/
theorem claim_C10_severity_placement (vs : List JValue)
    (h : ∀ v ∈ vs, ∃ sev ce, parseJsonItem v = .ok (sev, ce)) :
    ∃ es ws, parse_json_output (.arr vs) = .ok (es, ws)
      ∧ es = vs.filterMap (fun v =>
          match parseJsonItem v with
          | .ok (.error, ce) => some ce
          | _ => none)
      ∧ ws = vs.filterMap (fun v =>
          match parseJsonItem v with
          | .ok (.warning, ce) => some ce
          | .ok (.info, ce) => some ce
          | _ => none)
      ∧ ((∀ v ∈ vs, ∀ ce, parseJsonItem v ≠ .ok (.error, ce)) → es = []) := by
  show ∃ es ws, parseJsonItems vs = .ok (es, ws) ∧ _
  induction vs with
  | nil => exact ⟨[], [], rfl, rfl, rfl, fun _ => rfl⟩
  | cons v vs ih =>
    obtain ⟨sev, ce, hv⟩ := h v (List.mem_cons_self v vs)
    obtain ⟨es, ws, hes, he, hw, hnil⟩ := ih (fun u hu => h u (List.mem_cons_of_mem v hu))
    cases sev with
    | error =>
      refine ⟨ce :: es, ws, ?_, ?_, ?_, ?_⟩
      · simp only [parseJsonItems, hv, hes, Bind.bind, Except.bind]; rfl
      · simp only [List.filterMap_cons, hv, he]
      · simp only [List.filterMap_cons, hv, hw]
      · intro hall
        exact absurd hv (hall v (List.mem_cons_self v vs) ce)
    | warning =>
      refine ⟨es, ce :: ws, ?_, ?_, ?_, ?_⟩
      · simp only [parseJsonItems, hv, hes, Bind.bind, Except.bind]; rfl
      · simp only [List.filterMap_cons, hv, he]
      · simp only [List.filterMap_cons, hv, hw]
      · intro hall
        exact hnil (fun u hu => hall u (List.mem_cons_of_mem v hu))
    | info =>
      refine ⟨es, ce :: ws, ?_, ?_, ?_, ?_⟩
      · simp only [parseJsonItems, hv, hes, Bind.bind, Except.bind]; rfl
      · simp only [List.filterMap_cons, hv, he]
      · simp only [List.filterMap_cons, hv, hw]
      · intro hall
        exact hnil (fun u hu => hall u (List.mem_cons_of_mem v hu))

/-- Witness for C10: one info record and one error record. -/
theorem claim_C10_severity_placement_witness :
    ∃ es ws,
      parse_json_output (.arr
          [ .obj [("severity", JValue.str ("info")), ("code", JValue.str ("W-STYLE-001")),
                  ("message", JValue.str ("style nit"))]
          , .obj [("severity", JValue.str ("error")), ("code", JValue.str ("E-TYPE-001")),
                  ("message", JValue.str ("bad type"))] ])
        = .ok (es, ws)
      ∧ es = ([ .obj [("severity", JValue.str ("info")), ("code", JValue.str ("W-STYLE-001")),
                  ("message", JValue.str ("style nit"))]
          , .obj [("severity", JValue.str ("error")), ("code", JValue.str ("E-TYPE-001")),
                  ("message", JValue.str ("bad type"))] ]).filterMap (fun v =>
          match parseJsonItem v with
          | .ok (.error, ce) => some ce
          | _ => none)
      ∧ ws = ([ .obj [("severity", JValue.str ("info")), ("code", JValue.str ("W-STYLE-001")),
                  ("message", JValue.str ("style nit"))]
          , .obj [("severity", JValue.str ("error")), ("code", JValue.str ("E-TYPE-001")),
                  ("message", JValue.str ("bad type"))] ]).filterMap (fun v =>
          match parseJsonItem v with
          | .ok (.warning, ce) => some ce
          | .ok (.info, ce) => some ce
          | _ => none)
      ∧ ((∀ v ∈ ([ .obj [("severity", JValue.str ("info")), ("code", JValue.str ("W-STYLE-001")),
                  ("message", JValue.str ("style nit"))]
          , .obj [("severity", JValue.str ("error")), ("code", JValue.str ("E-TYPE-001")),
                  ("message", JValue.str ("bad type"))] ] : List JValue),
            ∀ ce, parseJsonItem v ≠ .ok (.error, ce)) → es = []) := by
  refine claim_C10_severity_placement _ (fun v hv => ?_)
  simp only [List.mem_cons, List.mem_singleton, List.not_mem_nil, or_false] at hv
  rcases hv with h | h <;> subst h
  · exact ⟨_, _, rfl⟩
  · exact ⟨_, _, rfl⟩

theorem fence_isPrefixOf_eq_false (c : Char) (rest : List Char) (h : c ≠ backtick) :
    fenceMarker.isPrefixOf (c :: rest) = false := by
  show (backtick :: [backtick, backtick]).isPrefixOf (c :: rest) = false
  simp only [List.isPrefixOf, Bool.and_eq_false_iff, beq_eq_false_iff_ne, ne_eq]
  exact Or.inl (fun hc => h hc.symm)

theorem tryOpenFence_head_ne (c : Char) (rest : List Char) (h : c ≠ backtick) :
    tryOpenFence (c :: rest) = none := by
  unfold tryOpenFence
  rw [fence_isPrefixOf_eq_false c rest h]
  simp

theorem firstFenceContent_cons_none (c : Char) (rest : List Char) (h : c ≠ backtick) :
    firstFenceContent (c :: rest) = firstFenceContent rest := by
  simp only [firstFenceContent, tryOpenFence_head_ne c rest h]

theorem firstFenceContent_skip (pre rest : List Char) (h : backtick ∉ pre) :
    firstFenceContent (pre ++ rest) = firstFenceContent rest := by
  induction pre with
  | nil => rfl
  | cons c cs ih =>
    have hc : c ≠ backtick := fun hcb => h (hcb ▸ List.mem_cons_self c cs)
    rw [List.cons_append, firstFenceContent_cons_none c _ hc]
    exact ih (fun hm => h (List.mem_cons_of_mem c hm))

theorem firstFenceContent_none (t : List Char) (h : backtick ∉ t) :
    firstFenceContent t = none := by
  induction t with
  | nil => rfl
  | cons c cs ih =>
    have hc : c ≠ backtick := fun hcb => h (hcb ▸ List.mem_cons_self c cs)
    rw [firstFenceContent_cons_none c _ hc]
    exact ih (fun hm => h (List.mem_cons_of_mem c hm))

theorem splitAtFence_no_backtick (body post : List Char) (h : backtick ∉ body) :
    splitAtFence (body ++ (fenceMarker ++ post)) = some body := by
  induction body with
  | nil =>
    have hp : fenceMarker.isPrefixOf (fenceMarker ++ post) = true := by
      rw [List.isPrefixOf_iff_prefix]
      exact List.prefix_append fenceMarker post
    rw [List.nil_append,
        show fenceMarker ++ post = backtick :: ([backtick, backtick] ++ post) from rfl]
    simp only [splitAtFence]
    rw [show (backtick :: ([backtick, backtick] ++ post)) = fenceMarker ++ post from rfl, hp]
    rfl
  | cons c cs ih =>
    have hc : c ≠ backtick := fun hcb => h (hcb ▸ List.mem_cons_self c cs)
    rw [List.cons_append]
    simp only [splitAtFence]
    rw [fence_isPrefixOf_eq_false c _ hc]
    simp only [Bool.false_eq_true, if_false]
    rw [ih (fun hm => h (List.mem_cons_of_mem c hm))]

theorem tryOpenFence_plain (Y : List Char) :
    tryOpenFence (fenceMarker ++ ('\n' :: Y)) = some Y := rfl

theorem tryOpenFence_tagged (Y : List Char) :
    tryOpenFence (fenceMarker ++ ("covenant".toList ++ ('\n' :: Y))) = some Y := by
  have h1 : fenceMarker.isPrefixOf (fenceMarker ++ ("covenant".toList ++ ('\n' :: Y))) = true := by
    rw [List.isPrefixOf_iff_prefix]
    exact List.prefix_append _ _
  have hdrop : (fenceMarker ++ ("covenant".toList ++ ('\n' :: Y))).drop 3
      = "covenant".toList ++ ('\n' :: Y) := rfl
  have h2 : (("covenant".toList ++ ['\n']).isPrefixOf ("covenant".toList ++ ('\n' :: Y))) = true := by
    rw [List.isPrefixOf_iff_prefix,
        show ("covenant".toList ++ ('\n' :: Y)) = ("covenant".toList ++ ['\n']) ++ Y by simp]
    exact List.prefix_append _ _
  have hdrop9 : ("covenant".toList ++ ('\n' :: Y)).drop 9 = Y := rfl
  simp only [tryOpenFence, h1, hdrop, h2, if_true, hdrop9]

theorem firstFenceContent_cons_open (c : Char) (rest after content : List Char)
    (h : tryOpenFence (c :: rest) = some after)
    (hs : splitAtFence after = some content) :
    firstFenceContent (c :: rest) = some content := by
  simp only [firstFenceContent, h, hs]

theorem extract_fence_plain (pre body post : List Char)
    (hpre : backtick ∉ pre) (hbody : backtick ∉ body) :
    firstFenceContent (pre ++ (fenceMarker ++ ('\n' :: (body ++ (fenceMarker ++ post)))))
      = some body := by
  rw [firstFenceContent_skip _ _ hpre]
  exact firstFenceContent_cons_open backtick _ (body ++ (fenceMarker ++ post)) body
    (tryOpenFence_plain (body ++ (fenceMarker ++ post)))
    (splitAtFence_no_backtick body post hbody)

theorem extract_fence_tagged (pre body post : List Char)
    (hpre : backtick ∉ pre) (hbody : backtick ∉ body) :
    firstFenceContent
        (pre ++ (fenceMarker ++ ("covenant".toList ++ ('\n' :: (body ++ (fenceMarker ++ post))))))
      = some body := by
  rw [firstFenceContent_skip _ _ hpre]
  exact firstFenceContent_cons_open backtick _ (body ++ (fenceMarker ++ post)) body
    (tryOpenFence_tagged (body ++ (fenceMarker ++ post)))
    (splitAtFence_no_backtick body post hbody)

theorem containsSub_fence (pre rest : List Char) :
    containsSub fenceMarker (pre ++ (fenceMarker ++ rest)) = true := by
  induction pre with
  | nil =>
    rw [List.nil_append,
        show fenceMarker ++ rest = backtick :: ([backtick, backtick] ++ rest) from rfl]
    simp only [containsSub]
    have hp : fenceMarker.isPrefixOf (backtick :: ([backtick, backtick] ++ rest)) = true := by
      rw [show (backtick :: ([backtick, backtick] ++ rest)) = fenceMarker ++ rest from rfl,
          List.isPrefixOf_iff_prefix]
      exact List.prefix_append fenceMarker rest
    rw [hp]
    simp
  | cons c cs ih =>
    rw [List.cons_append]
    simp only [containsSub, ih, Bool.or_true]

theorem containsSub_fence_eq_false (t : List Char) (h : backtick ∉ t) :
    containsSub fenceMarker t = false := by
  induction t with
  | nil => rfl
  | cons c cs ih =>
    have hc : c ≠ backtick := fun hcb => h (hcb ▸ List.mem_cons_self c cs)
    simp only [containsSub, fence_isPrefixOf_eq_false c cs hc,
      ih (fun hm => h (List.mem_cons_of_mem c hm)), Bool.or_self]

/-- Claim C9 as amended, at the level of `_call_llm`'s reply handling: a
fenced block is recognised exactly when its opening fence is immediately
followed by a newline or by the language tag `covenant` and a newline; the
first such block's contents, stripped, become the generated text.  A reply
that contains a ``` fence but no recognised block is used as the trimmed
full reply, while a reply with no fence anywhere is used verbatim —
untrimmed — because the extractor is only invoked when ``` occurs in the
reply.  (The hypotheses keep the text around the exhibited block free of
backticks so that it is the first fence.) -/
theorem claim_C9_fence_extraction (pre body post : List Char)
    (hpre : backtick ∉ pre) (hbody : backtick ∉ body) :
    call_llm_code
        (String.mk (pre ++ (fenceMarker ++ ('\n' :: (body ++ (fenceMarker ++ post))))))
      = String.mk (pyStrip body)
    ∧ call_llm_code
        (String.mk (pre ++ (fenceMarker ++ ("covenant".toList ++ ('\n' :: (body ++ (fenceMarker ++ post)))))))
      = String.mk (pyStrip body)
    ∧ (∀ t : List Char, containsSub fenceMarker t = true → firstFenceContent t = none →
        call_llm_code (String.mk t) = String.mk (pyStrip t))
    ∧ (∀ t : List Char, backtick ∉ t → call_llm_code (String.mk t) = String.mk t) := by
  refine ⟨?_, ?_, ?_, ?_⟩
  · have hg : containsSub fenceMarker
        ((String.mk (pre ++ (fenceMarker ++ ('\n' :: (body ++ (fenceMarker ++ post)))))).toList) = true :=
      containsSub_fence pre ('\n' :: (body ++ (fenceMarker ++ post)))
    unfold call_llm_code
    rw [hg, if_pos rfl]
    show (match firstFenceContent (pre ++ (fenceMarker ++ ('\n' :: (body ++ (fenceMarker ++ post))))) with
      | some content => String.mk (pyStrip content)
      | none => String.mk (pyStrip (pre ++ (fenceMarker ++ ('\n' :: (body ++ (fenceMarker ++ post)))))))
      = String.mk (pyStrip body)
    rw [extract_fence_plain pre body post hpre hbody]
  · have hg : containsSub fenceMarker
        ((String.mk (pre ++ (fenceMarker ++ ("covenant".toList ++ ('\n' :: (body ++ (fenceMarker ++ post))))))).toList) = true :=
      containsSub_fence pre ("covenant".toList ++ ('\n' :: (body ++ (fenceMarker ++ post))))
    unfold call_llm_code
    rw [hg, if_pos rfl]
    show (match firstFenceContent
        (pre ++ (fenceMarker ++ ("covenant".toList ++ ('\n' :: (body ++ (fenceMarker ++ post)))))) with
      | some content => String.mk (pyStrip content)
      | none => String.mk (pyStrip (pre ++ (fenceMarker ++ ("covenant".toList ++ ('\n' :: (body ++ (fenceMarker ++ post))))))))
      = String.mk (pyStrip body)
    rw [extract_fence_tagged pre body post hpre hbody]
  · intro t hc hn
    have hg : containsSub fenceMarker ((String.mk t).toList) = true := hc
    unfold call_llm_code
    rw [hg, if_pos rfl]
    show (match firstFenceContent t with
      | some content => String.mk (pyStrip content)
      | none => String.mk (pyStrip t)) = String.mk (pyStrip t)
    rw [hn]
  · intro t ht
    have hg : containsSub fenceMarker ((String.mk t).toList) = false :=
      containsSub_fence_eq_false t ht
    unfold call_llm_code
    rw [hg]
    simp

/-- Witness for the amended C9 at a concrete untagged block. -/
theorem claim_C9_fence_extraction_witness :
    call_llm_code
        (String.mk (("Reply: ".toList) ++ (fenceMarker ++ ('\n' :: (("  code  ".toList) ++ (fenceMarker ++ (" tail".toList)))))))
      = String.mk (pyStrip ("  code  ".toList)) :=
  (claim_C9_fence_extraction ("Reply: ".toList) ("  code  ".toList) (" tail".toList)
    (by decide) (by decide)).1

/-- Claim C9 counterexample: a reply consisting of a `python`-tagged
fenced block is not recognised — the harness returns the whole trimmed
reply (fences included) instead of the block's contents `hello`. -/
theorem claim_C9_counterexample :
    extract_code_from_markdown ("```python\nhello\n```") = "```python\nhello\n```"
    ∧ ("```python\nhello\n```" : String) ≠ "hello" :=
  ⟨rfl, by decide⟩

theorem selectPick_length (mt : Nat) :
    ∀ (l : List (Nat × Example)) (slots tot : Nat),
      (selectPick mt slots tot l).length ≤ slots := by
  intro l
  induction l with
  | nil => intro slots tot; cases slots <;> simp [selectPick]
  | cons p ps ih =>
    intro slots tot
    cases slots with
    | zero => simp [selectPick]
    | succ s =>
      simp only [selectPick]
      split
      · simpa using Nat.succ_le_succ (ih s (tot + p.2.approx_tokens))
      · exact ih (s + 1) tot

theorem selectPick_tokens (mt : Nat) :
    ∀ (l : List (Nat × Example)) (slots tot : Nat), tot ≤ mt →
      tot + ((selectPick mt slots tot l).map (fun e => e.approx_tokens)).sum ≤ mt := by
  intro l
  induction l with
  | nil => intro slots tot h; cases slots <;> simpa [selectPick]
  | cons p ps ih =>
    intro slots tot h
    cases slots with
    | zero => simpa [selectPick]
    | succ s =>
      simp only [selectPick]
      split
      · rename_i hfit
        have := ih s (tot + p.2.approx_tokens) hfit
        simp only [List.map_cons, List.sum_cons]
        omega
      · exact ih (s + 1) tot h

theorem selectPick_sublist (mt : Nat) :
    ∀ (l : List (Nat × Example)) (slots tot : Nat),
      (selectPick mt slots tot l).Sublist (l.map (fun p => p.2)) := by
  intro l
  induction l with
  | nil => intro slots tot; cases slots <;> simp [selectPick]
  | cons p ps ih =>
    intro slots tot
    cases slots with
    | zero => simp [selectPick]
    | succ s =>
      simp only [selectPick, List.map_cons]
      split
      · exact List.Sublist.cons₂ p.2 (ih s (tot + p.2.approx_tokens))
      · exact List.Sublist.cons p.2 (ih (s + 1) tot)

theorem orderedInsert_filter_score (s : Nat) (x : Nat × Example) :
    ∀ l : List (Nat × Example),
      (List.orderedInsert scoreRel x l).filter (fun p => p.1 == s)
        = ((x :: l).filter (fun p => p.1 == s)) := by
  intro l
  induction l with
  | nil => rfl
  | cons y ys ih =>
    by_cases hxy : scoreRel x y
    · simp [List.orderedInsert, hxy]
    · have hlt : x.1 < y.1 := by
        simp only [scoreRel, not_le] at hxy
        exact hxy
      simp only [List.orderedInsert, hxy, if_false]
      by_cases hys : y.1 = s
      · have hxs : (x.1 == s) = false := by
          simp only [beq_eq_false_iff_ne, ne_eq]
          omega
        simp only [List.filter_cons, hxs, hys, beq_self_eq_true, if_true, cond_true,
          cond_false, ih, List.filter_cons]
        simp [hxs]
      · have hys' : (y.1 == s) = false := by simp [hys]
        simp only [List.filter_cons, hys', cond_false, ih, List.filter_cons]
        by_cases hxs : x.1 = s
        · simp [hxs, hys']
        · simp [hxs, hys']

theorem insertionSort_filter_score (s : Nat) :
    ∀ l : List (Nat × Example),
      (List.insertionSort scoreRel l).filter (fun p => p.1 == s)
        = l.filter (fun p => p.1 == s) := by
  intro l
  induction l with
  | nil => rfl
  | cons x xs ih =>
    simp only [List.insertionSort, orderedInsert_filter_score, List.filter_cons, ih]

/-- Claim C5: for every task category and budgets, the selection respects
both budgets (token sum at most `max_tokens`, length at most
`max_examples`), is a subsequence of the score-sorted candidate list
(hence taken in score-descending order, skipping over-budget candidates
while continuing to later ones), the sorted candidate list is sorted by
score descending, and ties keep their original catalog order (stability:
the candidates at each fixed score appear in catalog order).  The last two
conjuncts exhibit the skip-and-continue behaviour concretely: for the CRUD
category with the default budgets, the top candidate (1200 tokens) is
taken, the second-best (450 tokens) exceeds the remaining budget and is
skipped, and iteration continues down to a lower-scored 80-token
candidate. -/
theorem claim_C5_selector_budgets (task_type : TaskType) (max_tokens max_examples : Nat) :
    (select task_type max_tokens max_examples).length ≤ max_examples
    ∧ ((select task_type max_tokens max_examples).map (fun e => e.approx_tokens)).sum ≤ max_tokens
    ∧ (select task_type max_tokens max_examples).Sublist
        ((sortedCandidates task_type).map (fun p => p.2))
    ∧ List.Sorted scoreRel (sortedCandidates task_type)
    ∧ (∀ s : Nat, (sortedCandidates task_type).filter (fun p => p.1 == s)
        = (scoredCandidates task_type).filter (fun p => p.1 == s))
    ∧ ((sortedCandidates .crud_operation).map (fun p => p.2.path)).take 2
        = ["examples/16-database-dialects.cov", "examples/06-database-access.cov"]
    ∧ (select .crud_operation 1500 3).map (fun e => e.path)
        = ["examples/16-database-dialects.cov", "examples/01-hello-world.cov"] := by
  refine ⟨?_, ?_, ?_, ?_, ?_, rfl, rfl⟩
  · exact selectPick_length max_tokens (sortedCandidates task_type) max_examples 0
  · simpa using
      selectPick_tokens max_tokens (sortedCandidates task_type) max_examples 0 (Nat.zero_le _)
  · exact selectPick_sublist max_tokens (sortedCandidates task_type) max_examples 0
  · exact List.sorted_insertionSort scoreRel (scoredCandidates task_type)
  · intro s
    exact insertionSort_filter_score s (scoredCandidates task_type)

theorem genLoop_spec (gen : AttemptOracle) :
    ∀ (r n : Nat) (init : List GenerationAttempt) (last : GenerationAttempt),
    ∃ init2 last2,
      genLoop gen r n (init ++ [last]) last.validation_result (attemptSuccess last)
        = (init2 ++ [last2], last2.validation_result, attemptSuccess last2)
      ∧ (init2 ++ [last2]).length ≤ (init ++ [last]).length + r
      ∧ (init ++ [last]) <+: (init2 ++ [last2])
      ∧ ((∀ a ∈ init, attemptSuccess a = false) → ∀ a ∈ init2, attemptSuccess a = false) := by
  intro r
  induction r with
  | zero =>
    intro n init last
    exact ⟨init, last, rfl, Nat.le_refl _, List.prefix_rfl, fun h => h⟩
  | succ r ih =>
    intro n init last
    by_cases hfs : attemptSuccess last = true
    · refine ⟨init, last, ?_, by omega, List.prefix_rfl, fun h => h⟩
      simp only [genLoop, hfs, if_true]
    · rw [Bool.not_eq_true] at hfs
      cases hcv : last.validation_result with
      | none =>
        refine ⟨init, last, ?_, by omega, List.prefix_rfl, fun h => h⟩
        simp only [genLoop, hfs, Bool.false_eq_true, if_false, hcv]
      | some cv =>
        by_cases hcvs : cv.success = true
        · refine ⟨init, last, ?_, by omega, List.prefix_rfl, fun h => h⟩
          simp only [genLoop, hfs, Bool.false_eq_true, if_false, hcv, hcvs, if_true]
        · rw [Bool.not_eq_true] at hcvs
          have hstep : genLoop gen (r + 1) n (init ++ [last]) (some cv)
                (attemptSuccess last)
              = genLoop gen r (n + 1) ((init ++ [last]) ++ [gen n])
                  (gen n).validation_result (attemptSuccess (gen n)) := by
            simp only [genLoop, hfs, Bool.false_eq_true, if_false, hcvs]
          obtain ⟨init2, last2, heq, hlen, hpre, hfail⟩ := ih (n + 1) (init ++ [last]) (gen n)
          refine ⟨init2, last2, hstep.trans heq, ?_, ?_, ?_⟩
          · simp only [List.length_append, List.length_cons, List.length_nil] at hlen ⊢
            omega
          · exact List.IsPrefix.trans (List.prefix_append (init ++ [last]) [gen n]) hpre
          · intro hinit
            apply hfail
            intro b hb
            rcases List.mem_append.mp hb with hbi | hbl
            · exact hinit b hbi
            · rw [List.mem_singleton] at hbl
              subst hbl
              exact hfs

/-- Claim C1: for every retry bound `R` and every behaviour of the model
and validator (the attempt oracle), `generate` makes at most `1 + R`
attempts and `total_attempts` equals the attempt-list length;
`first_pass_success` is exactly Attempt 1's validation success and later
rounds never revise it; `final_success` holds iff some recorded attempt's
validation succeeded; and every attempt except the last one failed, so no
further model invocation follows a successful attempt. -/
theorem claim_C1_generation_loop (R : Nat) (task_id : String) (gen : AttemptOracle) :
    (generate R task_id gen).total_attempts = (generate R task_id gen).attempts.length
    ∧ (generate R task_id gen).attempts.length ≤ 1 + R
    ∧ (generate R task_id gen).first_pass_success = attemptSuccess (gen 1)
    ∧ ((generate R task_id gen).final_success = true
        ↔ ∃ a ∈ (generate R task_id gen).attempts, attemptSuccess a = true)
    ∧ (∀ a ∈ (generate R task_id gen).attempts.dropLast, attemptSuccess a = false) := by
  obtain ⟨init2, last2, heq, hlen, hpre, hfail⟩ := genLoop_spec gen R 2 [] (gen 1)
  simp only [List.nil_append] at heq hlen hpre
  have hall : ∀ a ∈ init2, attemptSuccess a = false :=
    hfail (fun b hb => absurd hb (List.not_mem_nil b))
  have h1 : (generate R task_id gen).attempts = init2 ++ [last2] := by
    simp only [generate]; rw [heq]
  have h2 : (generate R task_id gen).total_attempts = (init2 ++ [last2]).length := by
    simp only [generate]; rw [heq]
  have h3 : (generate R task_id gen).first_pass_success = attemptSuccess (gen 1) := by
    simp only [generate]
  have h4 : (generate R task_id gen).final_success = attemptSuccess last2 := by
    simp only [generate]; rw [heq]
  refine ⟨?_, ?_, ?_, ?_, ?_⟩
  · rw [h2, h1]
  · rw [h1]
    simp only [List.length_append, List.length_cons, List.length_nil] at hlen ⊢
    omega
  · exact h3
  · rw [h4, h1]
    constructor
    · intro h
      exact ⟨last2, List.mem_append_right init2 (List.mem_singleton_self last2), h⟩
    · rintro ⟨a, ha, hsucc⟩
      rcases List.mem_append.mp ha with hai | hal
      · rw [hall a hai] at hsucc
        exact absurd hsucc (by simp)
      · rw [List.mem_singleton] at hal
        subst hal
        exact hsucc
  · rw [h1]
    intro a ha
    have hd : (init2 ++ [last2]).dropLast = init2 := by simp
    rw [hd] at ha
    exact hall a ha
